import Mathlib

/-!
Verification development for the jemalloc-ctl typed control layer
(src/lib.rs, src/thread.rs).  The crate wraps three foreign entry points
(mallctlnametomib, mallctl, mallctlbymib) with typed primitives
(name_to_mib, get/get_mib, set/set_mib, get_set/get_set_mib,
get_str/get_str_mib) and per-key accessor types (Epoch, Version,
BackgroundThread, MaxBackgroundThreads).  The Rust wrappers are embedded
faithfully below; the foreign allocator itself is an external collaborator
and is modelled from the spec (sections 3, 4.1 and 6) where its behaviour
decides a claim.
-/

namespace JemallocCtl

/-- Raw bytes as transferred across the foreign boundary (each entry a byte
value 0..255; the models never depend on the bound). -/
abbrev Bytes := List Nat

/-- Model of the `std::io::Error` values this crate constructs: either
`io::Error::from_raw_os_error(code)` (built by `cvt`, src/lib.rs:205-211)
or `io::Error::new(io::ErrorKind::InvalidData, _)` (built by
`get_str`/`get_str_mib`, src/lib.rs:143-155). -/
inductive IoError
  | raw (code : Int)
  | invalidData
  deriving DecidableEq

/-- Result of running a wrapper in a build where `debug_assert_eq!` may
fire: the `io::Result` outcome, or a debug-assertion panic. -/
inductive Outcome (α : Type)
  | ok (a : α)
  | err (e : IoError)
  | assertFail
  deriving DecidableEq

/-- Embedding of `cvt` (src/lib.rs:205-211): status 0 is success, any other
status becomes `io::Error::from_raw_os_error(ret)`. -/
def cvt (ret : Int) : Except IoError Unit :=
  if ret = 0 then Except.ok () else Except.error (IoError.raw ret)

/-- The argument shape of one foreign `mallctl`/`mallctlbymib` invocation as
built by the Rust wrappers.  Caller-side buffers are identified by ids
(the wrappers use a single local variable, id 0); `none` is a null
pointer.  `oldLenp` is the length value passed through the in/out
`oldlenp` pointer, `none` when that pointer is null. -/
structure AccessArgs where
  oldp : Option Nat
  oldLenp : Option Nat
  newp : Option Nat
  newLen : Nat
  deriving DecidableEq

/-- Argument list built by `get_mib`/`get` (src/lib.rs:114-141): `oldp` is
the address of the local `value`, `oldlenp` points at `len` initialised to
`size_of::<T>()`, and the write side is `ptr::null_mut()` with length 0. -/
def getArgs (sizeT : Nat) : AccessArgs :=
  { oldp := some 0, oldLenp := some sizeT, newp := none, newLen := 0 }

/-- Argument list built by `set_mib`/`set` (src/lib.rs:157-176): the read
side is `ptr::null_mut()` twice, `newp` is the address of the local
`value` with length `size_of::<T>()`. -/
def setArgs (sizeT : Nat) : AccessArgs :=
  { oldp := none, oldLenp := none, newp := some 0, newLen := sizeT }

/-- Argument list built by `get_set_mib`/`get_set` (src/lib.rs:178-203):
the address of the one local `value` is passed both as `oldp` and as
`newp`, and the one local `len = size_of::<T>()` is passed both through
`oldlenp` and as `newlen`. -/
def getSetArgs (sizeT : Nat) : AccessArgs :=
  { oldp := some 0, oldLenp := some sizeT, newp := some 0, newLen := sizeT }

/-! ### Tier 0: wrappers parametric in the foreign reply

These embeddings treat the foreign call as an oracle handing back an
arbitrary status, buffer contents and reported length, so that theorems can
quantify over every foreign status code. -/

/-- An arbitrary reply of a foreign access call: the status, the bytes the
call left in the caller's `value` buffer, and the length written back
through `oldlenp`. -/
structure ForeignReply where
  status : Int
  buf : Bytes
  lenOut : Nat

/-- An arbitrary reply of the foreign resolve call `mallctlnametomib`: the
status, the handle components written into the caller's `mib` buffer, and
the length written back through the in/out `len` pointer. -/
structure ResolveReply where
  status : Int
  mib : List Nat
  lenOut : Nat

/-- Embedding of `name_to_mib` (src/lib.rs:103-112), parametric in the
foreign reply: `cvt` the status (propagating failure with `?`), then
`debug_assert_eq!(mib.len(), len)` — in a debug build a reported length
different from the buffer's component count panics rather than returning a
truncated handle. -/
def nameToMibWith (mibLen : Nat) (debug : Bool) (r : ResolveReply) :
    Outcome (List Nat) :=
  match cvt r.status with
  | Except.error e => Outcome.err e
  | Except.ok _ =>
      if debug ∧ ¬ mibLen = r.lenOut then Outcome.assertFail
      else Outcome.ok r.mib

/-- Embedding of `get_mib`/`get` (src/lib.rs:114-141), parametric in the
foreign reply: `cvt` the status, then `debug_assert_eq!(len,
size_of::<T>())`, then return the buffer contents. -/
def getMibWith (sizeT : Nat) (debug : Bool) (r : ForeignReply) :
    Outcome Bytes :=
  match cvt r.status with
  | Except.error e => Outcome.err e
  | Except.ok _ =>
      if debug ∧ ¬ r.lenOut = sizeT then Outcome.assertFail
      else Outcome.ok r.buf

/-- Embedding of `get_set_mib`/`get_set` (src/lib.rs:178-203), parametric
in the foreign reply: identical post-processing to `get_mib` — `cvt`, the
`debug_assert_eq!(len, size_of::<T>())`, then the buffer contents. -/
def getSetWith (sizeT : Nat) (debug : Bool) (r : ForeignReply) :
    Outcome Bytes :=
  match cvt r.status with
  | Except.error e => Outcome.err e
  | Except.ok _ =>
      if debug ∧ ¬ r.lenOut = sizeT then Outcome.assertFail
      else Outcome.ok r.buf

/-! ### Tier 1: the generic slot boundary

Modelled from the spec (section 4.1): `access(handle-or-path, read_buffer?,
write_buffer?)` captures the old slot value and the new-value buffer, then
installs the new value and deposits the old value in the read buffer as one
logical step; a declared buffer length that does not match the slot's size
fails with a nonzero status and no effect. -/

/-- Caller-side memory: contents of each buffer id. -/
abbrev Mem := Nat → Bytes

/-- Memory holding `v` in the single local buffer (id 0) the wrappers use
and empty contents elsewhere. -/
def initMem (v : Bytes) : Mem := fun i => if i = 0 then v else []

/-- Result of one foreign access call: status, slot contents after the
call, caller memory after the call, and the length written back through
`oldlenp`. -/
structure AccessOut where
  status : Int
  slot : Bytes
  mem : Mem
  oldLenOut : Nat

/-- Modelled from the spec (sections 4.1 and 6): the foreign access
primitive on a generic read-write slot.  If each populated side declares
exactly the slot's size, the call captures the old value and the incoming
new value, installs the new value, writes the old value into the read
buffer and reports the slot's size through `oldlenp`; otherwise it returns
a nonzero platform status (22, EINVAL) and changes nothing. -/
def accessRun (slot : Bytes) (mem : Mem) (a : AccessArgs) : AccessOut :=
  if (a.newp = none ∨ a.newLen = slot.length) ∧
      (a.oldp = none ∨ a.oldLenp = some slot.length) then
    let newv : Option Bytes := a.newp.map mem
    let memAfter : Mem :=
      match a.oldp with
      | some b => fun i => if i = b then slot else mem i
      | none => mem
    { status := 0
      slot := newv.getD slot
      mem := memAfter
      oldLenOut := slot.length }
  else
    { status := 22, slot := slot, mem := mem, oldLenOut := 0 }

/-- Embedding of `get_mib`/`get` (src/lib.rs:114-141) run against the
spec-modelled slot: the local `value` starts uninitialised (arbitrary
bytes `u`), the call uses `getArgs`, and the wrapper returns the buffer
contents after `cvt` and the debug assertion.  The triple also records the
slot contents after the call and the number of foreign access calls
made. -/
def getRun (sizeT : Nat) (debug : Bool) (u : Bytes) (slot : Bytes) :
    Outcome Bytes × Bytes × Nat :=
  let r := accessRun slot (initMem u) (getArgs sizeT)
  let out :=
    match cvt r.status with
    | Except.error e => Outcome.err e
    | Except.ok _ =>
        if debug ∧ ¬ r.oldLenOut = sizeT then Outcome.assertFail
        else Outcome.ok (r.mem 0)
  (out, r.slot, 1)

/-- Embedding of `set_mib`/`set` (src/lib.rs:157-176) run against the
spec-modelled slot: the local `value` holds the bytes to write, the call
uses `setArgs`, there is no assertion, and the wrapper returns unit. -/
def setRun (sizeT : Nat) (slot : Bytes) (v : Bytes) :
    Outcome Unit × Bytes × Nat :=
  let r := accessRun slot (initMem v) (setArgs sizeT)
  let out :=
    match cvt r.status with
    | Except.error e => Outcome.err e
    | Except.ok _ => Outcome.ok ()
  (out, r.slot, 1)

/-- Embedding of `get_set_mib`/`get_set` (src/lib.rs:178-203) run against
the spec-modelled slot: the one local `value` starts as the new value and
is passed as both `oldp` and `newp` with the one `len = size_of::<T>()`;
after `cvt` and the debug assertion the wrapper returns whatever the call
left in that shared buffer. -/
def getSetRun (sizeT : Nat) (debug : Bool) (slot : Bytes) (newv : Bytes) :
    Outcome Bytes × Bytes × Nat :=
  let r := accessRun slot (initMem newv) (getSetArgs sizeT)
  let out :=
    match cvt r.status with
    | Except.error e => Outcome.err e
    | Except.ok _ =>
        if debug ∧ ¬ r.oldLenOut = sizeT then Outcome.assertFail
        else Outcome.ok (r.mem 0)
  (out, r.slot, 1)

/-! ### Value encodings

The typed wrappers transfer `T` as raw bytes; the keys used by the claims
carry `bool` (one byte) and `u64`/`usize` (eight little-endian bytes). -/

/-- Little-endian byte encoding of a natural number into `k` bytes. -/
def encodeLE : Nat → Nat → Bytes
  | 0, _ => []
  | k + 1, v => v % 256 :: encodeLE k (v / 256)

/-- Little-endian byte decoding. -/
def decodeLE (bs : Bytes) : Nat :=
  bs.foldr (fun b acc => b + 256 * acc) 0

/-- The eight-byte encoding of a `u64`/`usize` value. -/
def encodeU64 (v : Nat) : Bytes := encodeLE 8 v

/-- The `u64`/`usize` value a returned eight-byte buffer reinterprets to. -/
def decodeU64 (bs : Bytes) : Nat := decodeLE bs

/-- The one-byte encoding of a Rust `bool`. -/
def encodeBool (b : Bool) : Bytes := [if b then 1 else 0]

/-- The `bool` value a returned one-byte buffer reinterprets to (a nonzero
byte is `true`). -/
def decodeBool (bs : Bytes) : Bool := bs.headD 0 != 0

/-! ### Read-write accessors: BackgroundThread and MaxBackgroundThreads

`BackgroundThread::get`/`set` (src/lib.rs:428-435) are `get_mib::<bool>`
and `set_mib::<bool>`; `MaxBackgroundThreads::get`/`set`
(src/lib.rs:504-511) are `get_mib::<usize>` and `set_mib::<usize>`.  The
state is the contents of the resolved slot. -/

/-- Embedding of `BackgroundThread::set` (src/lib.rs:433-435):
`set_mib::<bool>(&self.0, v)` against the background_thread slot. -/
def BackgroundThread.setM (slot : Bytes) (v : Bool) :
    Outcome Unit × Bytes × Nat :=
  setRun 1 slot (encodeBool v)

/-- Embedding of `BackgroundThread::get` (src/lib.rs:428-430):
`get_mib::<bool>(&self.0)`, reinterpreting the returned byte. -/
def BackgroundThread.getM (debug : Bool) (u : Bytes) (slot : Bytes) :
    Outcome Bool × Bytes × Nat :=
  match getRun 1 debug u slot with
  | (Outcome.ok b, s, c) => (Outcome.ok (decodeBool b), s, c)
  | (Outcome.err e, s, c) => (Outcome.err e, s, c)
  | (Outcome.assertFail, s, c) => (Outcome.assertFail, s, c)

/-- Embedding of `MaxBackgroundThreads::set` (src/lib.rs:509-511):
`set_mib::<usize>(&self.0, v)` against the max_background_threads slot. -/
def MaxBackgroundThreads.setM (slot : Bytes) (v : Nat) :
    Outcome Unit × Bytes × Nat :=
  setRun 8 slot (encodeU64 v)

/-- Embedding of `MaxBackgroundThreads::get` (src/lib.rs:504-506):
`get_mib::<usize>(&self.0)`, reinterpreting the returned bytes. -/
def MaxBackgroundThreads.getM (debug : Bool) (u : Bytes) (slot : Bytes) :
    Outcome Nat × Bytes × Nat :=
  match getRun 8 debug u slot with
  | (Outcome.ok b, s, c) => (Outcome.ok (decodeU64 b), s, c)
  | (Outcome.err e, s, c) => (Outcome.err e, s, c)
  | (Outcome.assertFail, s, c) => (Outcome.assertFail, s, c)

/-! ### Tier 2: the named-key allocator model

Modelled from the spec (sections 2, 3, 4.1 and 6): the allocator holds a
registry from dotted key paths to handles, the epoch counter and the
version string slot.  The `epoch` key is a monotonically increasing 64-bit
counter: an access whose write side is present advances it by exactly one
and reports the advanced value through the read side (the written payload
is a protocol constant whose numeric value carries no meaning).  The
`version` key is a read-only pointer-valued slot whose pointee is a
null-terminated byte string with process lifetime.  Buffer payloads at
this tier are the transferred word values (`u64` or pointer); their
declared byte length is still checked against the slot size, 8. -/

/-- A dotted key path. -/
abbrev Path := String

/-- Word-valued caller memory for tier 2 (buffer id to `u64`/pointer). -/
abbrev WMem := Nat → Nat

/-- Spec-modelled allocator state: the path registry, the handles of the
two keys the claims name, the epoch counter, the pointer stored in the
version slot, and the process memory holding interned string bytes. -/
structure AllocModel where
  registry : Path → Option (List Nat)
  epochMib : List Nat
  versionMib : List Nat
  epoch : Nat
  versionAddr : Nat
  strMem : Nat → Bytes

/-- Writes a word through an optional read-buffer pointer. -/
def writeWord (mem : WMem) (dst : Option Nat) (v : Nat) : WMem :=
  match dst with
  | some b => fun i => if i = b then v else mem i
  | none => mem

/-- Modelled from the spec (sections 3, 4.1): the foreign access call
dispatched by handle.  The epoch slot advances by one when the write side
is present and reports the resulting counter; the version slot is
read-only and reports the stored pointer; an unknown handle fails with
status 2 (ENOENT), a length mismatch with status 22 (EINVAL). -/
def AllocModel.accessByMib (A : AllocModel) (m : List Nat) (mem : WMem)
    (a : AccessArgs) : Int × AllocModel × WMem × Nat :=
  if m = A.epochMib then
    if (a.oldp = none ∨ a.oldLenp = some 8) ∧
        (a.newp = none ∨ a.newLen = 8) then
      let e := if a.newp.isSome then A.epoch + 1 else A.epoch
      (0, { A with epoch := e }, writeWord mem a.oldp e, 8)
    else (22, A, mem, 0)
  else if m = A.versionMib then
    if a.newp.isSome then (1, A, mem, 0)
    else if a.oldp = none ∨ a.oldLenp = some 8 then
      (0, A, writeWord mem a.oldp A.versionAddr, 8)
    else (22, A, mem, 0)
  else (2, A, mem, 0)

/-- Modelled from the spec (sections 2, 6): the foreign access call by
name resolves the path through the registry on every invocation and then
behaves as the by-handle call; an unknown path fails with status 2. -/
def AllocModel.accessByName (A : AllocModel) (p : Path) (mem : WMem)
    (a : AccessArgs) : Int × AllocModel × WMem × Nat :=
  match A.registry p with
  | none => (2, A, mem, 0)
  | some m => A.accessByMib m mem a

/-- The `b"epoch\0"` path constant (src/lib.rs:275). -/
def epochPath : Path := "epoch"

/-- The `b"version\0"` path constant (src/lib.rs:213). -/
def versionPath : Path := "version"

/-- A wrapper run against the tier-2 model: the outcome, the allocator
state after the call, the number of foreign access calls made, and the
number of path resolutions performed during the call. -/
structure Run2 (α : Type) where
  out : Outcome α
  state : AllocModel
  accessCalls : Nat
  resolveCalls : Nat

/-- Embedding of `Epoch::new` (src/lib.rs:333-339): `name_to_mib(EPOCH,
&mut mib)` with a one-element handle buffer, then the debug assertion
that the reported component count is 1. -/
def Epoch.newM (A : AllocModel) (debug : Bool) : Outcome (List Nat) :=
  match A.registry epochPath with
  | none => Outcome.err (IoError.raw 2)
  | some m =>
      if debug ∧ ¬ m.length = 1 then Outcome.assertFail else Outcome.ok m

/-- Embedding of `Epoch::advance` (src/lib.rs:345-347):
`get_set_mib::<u64>(&self.0, 1)` — the local `value` holds the protocol
constant 1, the one buffer and the one length serve both directions, and
the wrapper returns what the call left in the buffer. -/
def Epoch.advanceM (A : AllocModel) (m : List Nat) (debug : Bool) :
    Run2 Nat :=
  let mem0 : WMem := fun _ => 1
  match A.accessByMib m mem0 (getSetArgs 8) with
  | (st, A2, mem2, lenOut) =>
      let out :=
        match cvt st with
        | Except.error e => Outcome.err e
        | Except.ok _ =>
            if debug ∧ ¬ lenOut = 8 then Outcome.assertFail
            else Outcome.ok (mem2 0)
      ⟨out, A2, 1, 0⟩

/-- Embedding of the direct-path `epoch()` (src/lib.rs:299-301):
`get_set::<u64>(EPOCH, 1)` — one foreign by-name access call, which
re-resolves the constant path inside the allocator on every invocation. -/
def epochDirect (A : AllocModel) (debug : Bool) : Run2 Nat :=
  let mem0 : WMem := fun _ => 1
  match A.accessByName epochPath mem0 (getSetArgs 8) with
  | (st, A2, mem2, lenOut) =>
      let out :=
        match cvt st with
        | Except.error e => Outcome.err e
        | Except.ok _ =>
            if debug ∧ ¬ lenOut = 8 then Outcome.assertFail
            else Outcome.ok (mem2 0)
      ⟨out, A2, 1, 1⟩

/-- The byte string `CStr::from_ptr` reads at an address: the pointee
bytes up to (excluding) the first null terminator. -/
def cstrBytes (A : AllocModel) (ptr : Nat) : Bytes :=
  (A.strMem ptr).takeWhile (fun b => b != 0)

/-- Embedding of `get_str_mib` (src/lib.rs:143-148) over the tier-2 model:
`get_mib::<*const c_char>(mib)` (pointer-sized read, the local buffer
starting uninitialised at `u`), then `CStr::from_ptr` on the returned
pointer, then `to_str` — valid text is returned, invalid text becomes an
`InvalidData` error.  Validity of the byte string as text is the external
`str::from_utf8` check, passed in as `valid`. -/
def getStrByMib (A : AllocModel) (m : List Nat) (valid : Bytes → Bool)
    (u : Nat) (debug : Bool) : Run2 Bytes :=
  match A.accessByMib m (fun i => if i = 0 then u else 0) (getArgs 8) with
  | (st, A2, mem2, lenOut) =>
      let out :=
        match cvt st with
        | Except.error e => Outcome.err e
        | Except.ok _ =>
            if debug ∧ ¬ lenOut = 8 then Outcome.assertFail
            else
              let bs := cstrBytes A2 (mem2 0)
              if valid bs then Outcome.ok bs
              else Outcome.err IoError.invalidData
      ⟨out, A2, 1, 0⟩

/-- Embedding of `get_str` (src/lib.rs:150-155) over the tier-2 model:
identical to `get_str_mib` but through the by-name access call, which
resolves the path on every invocation. -/
def getStrByName (A : AllocModel) (p : Path) (valid : Bytes → Bool)
    (u : Nat) (debug : Bool) : Run2 Bytes :=
  match A.accessByName p (fun i => if i = 0 then u else 0) (getArgs 8) with
  | (st, A2, mem2, lenOut) =>
      let out :=
        match cvt st with
        | Except.error e => Outcome.err e
        | Except.ok _ =>
            if debug ∧ ¬ lenOut = 8 then Outcome.assertFail
            else
              let bs := cstrBytes A2 (mem2 0)
              if valid bs then Outcome.ok bs
              else Outcome.err IoError.invalidData
      ⟨out, A2, 1, 1⟩

/-- Embedding of `Version::new` (src/lib.rs:261-267): `name_to_mib(VERSION,
&mut mib)` with a one-element handle buffer and the debug assertion. -/
def Version.newM (A : AllocModel) (debug : Bool) : Outcome (List Nat) :=
  match A.registry versionPath with
  | none => Outcome.err (IoError.raw 2)
  | some m =>
      if debug ∧ ¬ m.length = 1 then Outcome.assertFail else Outcome.ok m

/-- Embedding of `Version::get` (src/lib.rs:270-272): `get_str_mib(&self.0)`. -/
def Version.getM (A : AllocModel) (m : List Nat) (valid : Bytes → Bool)
    (u : Nat) (debug : Bool) : Run2 Bytes :=
  getStrByMib A m valid u debug

/-- Embedding of the direct-path `version()` (src/lib.rs:234-236):
`get_str(VERSION)`. -/
def versionDirect (A : AllocModel) (valid : Bytes → Bool) (u : Nat)
    (debug : Bool) : Run2 Bytes :=
  getStrByName A versionPath valid u debug

/-- Concrete allocator instance used to evaluate the theorems on explicit
inputs: the registry knows `epoch` (handle `[1]`) and `version` (handle
`[0]`), the epoch counter starts at 5, and the version slot points at the
null-terminated byte string `[104, 105, 0, ...]` at address 100. -/
def sampleAlloc : AllocModel :=
  { registry := fun p =>
      if p = epochPath then some [1]
      else if p = versionPath then some [0]
      else none
    epochMib := [1]
    versionMib := [0]
    epoch := 5
    versionAddr := 100
    strMem := fun a => if a = 100 then [104, 105, 0, 33] else [] }

/-! ### Helper lemmas -/

/-- Length of the little-endian encoding. -/
theorem encodeLE_length (k v : Nat) : (encodeLE k v).length = k := by
  induction k generalizing v with
  | zero => simp [encodeLE]
  | succ k ih => simp [encodeLE, ih]

/-- Decomposition of a modulus by a product. -/
theorem mod_mul_split (v m k : Nat) (hm : 0 < m) (hk : 0 < k) :
    v % (m * k) = m * (v / m % k) + v % m := by
  conv_lhs => rw [← Nat.div_add_mod v m]
  rw [Nat.add_mod, Nat.mul_mod_mul_left]
  have hx : v / m % k < k := Nat.mod_lt _ hk
  have hvm : v % m < m := Nat.mod_lt _ hm
  have hmk : v % m % (m * k) = v % m :=
    Nat.mod_eq_of_lt (lt_of_lt_of_le hvm (Nat.le_mul_of_pos_right m hk))
  rw [hmk]
  have hlt : m * (v / m % k) + v % m < m * k := by
    have h3 : m * (v / m % k) + v % m < m * (v / m % k) + m :=
      Nat.add_lt_add_left hvm _
    have h4 : m * (v / m % k) + m = m * (v / m % k + 1) := by
      rw [Nat.mul_succ]
    have h5 : m * (v / m % k + 1) ≤ m * k :=
      Nat.mul_le_mul_left m (Nat.succ_le_of_lt hx)
    exact lt_of_lt_of_le (h4 ▸ h3) h5
  exact Nat.mod_eq_of_lt hlt

/-- Decoding inverts the little-endian encoding up to the width. -/
theorem decodeLE_encodeLE (k v : Nat) :
    decodeLE (encodeLE k v) = v % 256 ^ k := by
  induction k generalizing v with
  | zero => simp [encodeLE, decodeLE, Nat.mod_one]
  | succ k ih =>
      have hstep : decodeLE (encodeLE (k + 1) v) =
          v % 256 + 256 * decodeLE (encodeLE k (v / 256)) := by
        simp [encodeLE, decodeLE]
      rw [hstep, ih, pow_succ, mul_comm (256 ^ k) 256,
        mod_mul_split v 256 (256 ^ k) (by norm_num) (Nat.pos_pow_of_pos k (by norm_num))]
      omega

/-- Decoding inverts the eight-byte `u64` encoding below `2 ^ 64`. -/
theorem decodeU64_encodeU64 (v : Nat) (hv : v < 2 ^ 64) :
    decodeU64 (encodeU64 v) = v := by
  have h : (256 : Nat) ^ 8 = 2 ^ 64 := by norm_num
  rw [decodeU64, encodeU64, decodeLE_encodeLE, h, Nat.mod_eq_of_lt hv]

/-- Decoding inverts the one-byte `bool` encoding. -/
theorem decodeBool_encodeBool (v : Bool) : decodeBool (encodeBool v) = v := by
  cases v <;> rfl

/-- Computation of `Epoch::advance` on its own handle: the counter
advances by one and the advanced value is returned. -/
theorem advanceM_run (A : AllocModel) (debug : Bool) :
    Epoch.advanceM A A.epochMib debug =
      ⟨Outcome.ok (A.epoch + 1), { A with epoch := A.epoch + 1 }, 1, 0⟩ := by
  simp [Epoch.advanceM, AllocModel.accessByMib, getSetArgs, writeWord, cvt]

/-- Computation of the direct-path `epoch()` when the registry resolves the
constant path to the epoch handle. -/
theorem epochDirect_run (A : AllocModel) (debug : Bool)
    (hreg : A.registry epochPath = some A.epochMib) :
    epochDirect A debug =
      ⟨Outcome.ok (A.epoch + 1), { A with epoch := A.epoch + 1 }, 1, 1⟩ := by
  simp [epochDirect, AllocModel.accessByName, hreg, AllocModel.accessByMib,
    getSetArgs, writeWord, cvt]

/-- Computation of `get_str_mib` on the version handle. -/
theorem getStr_version_by_mib (A : AllocModel) (valid : Bytes → Bool)
    (u : Nat) (debug : Bool) (hne : A.versionMib ≠ A.epochMib) :
    getStrByMib A A.versionMib valid u debug =
      ⟨if valid (cstrBytes A A.versionAddr) then
          Outcome.ok (cstrBytes A A.versionAddr)
        else Outcome.err IoError.invalidData, A, 1, 0⟩ := by
  simp [getStrByMib, AllocModel.accessByMib, getArgs, writeWord, cvt, hne]

/-- Computation of `get_str` on the version path. -/
theorem getStr_version_by_name (A : AllocModel) (valid : Bytes → Bool)
    (u : Nat) (debug : Bool)
    (hregv : A.registry versionPath = some A.versionMib)
    (hne : A.versionMib ≠ A.epochMib) :
    getStrByName A versionPath valid u debug =
      ⟨if valid (cstrBytes A A.versionAddr) then
          Outcome.ok (cstrBytes A A.versionAddr)
        else Outcome.err IoError.invalidData, A, 1, 1⟩ := by
  simp [getStrByName, AllocModel.accessByName, hregv, AllocModel.accessByMib,
    getArgs, writeWord, cvt, hne]

/-! ### Claim theorems -/

/-- C1: for successful `advance()` calls on a single `Epoch` instance with
no concurrent advancer, each returned value is exactly 1 greater than the
value returned by the immediately preceding `advance()` on that instance;
the same holds for consecutive calls of the direct-path `epoch()`. -/
theorem epoch_advance_increments_by_one (A : AllocModel) (debug : Bool)
    (hreg : A.registry epochPath = some A.epochMib) :
    (∀ r₁ r₂ : Nat,
        (Epoch.advanceM A A.epochMib debug).out = Outcome.ok r₁ →
        (Epoch.advanceM (Epoch.advanceM A A.epochMib debug).state A.epochMib
            debug).out = Outcome.ok r₂ →
        r₂ = r₁ + 1) ∧
    (∀ r₁ r₂ : Nat,
        (epochDirect A debug).out = Outcome.ok r₁ →
        (epochDirect (epochDirect A debug).state debug).out = Outcome.ok r₂ →
        r₂ = r₁ + 1) := by
  constructor
  · intro r₁ r₂ h1 h2
    rw [advanceM_run] at h1
    rw [advanceM_run] at h2
    rw [advanceM_run] at h2
    simp at h1 h2
    omega
  · intro r₁ r₂ h1 h2
    rw [epochDirect_run A debug hreg] at h1 h2
    rw [epochDirect_run { A with epoch := A.epoch + 1 } debug hreg] at h2
    simp at h1 h2
    omega

/-- Witness for C1 at the concrete allocator instance: the hypotheses hold
and two successive advances from epoch 5 return 6 then 7. -/
theorem epoch_advance_increments_by_one_witness :
    sampleAlloc.registry epochPath = some sampleAlloc.epochMib ∧
    (7 : Nat) = 6 + 1 := by
  refine ⟨by decide, ?_⟩
  exact (epoch_advance_increments_by_one sampleAlloc false (by decide)).1 6 7
    (by decide) (by decide)

/-- C2: `get_set`/`get_set_mib` perform the read of the old value and the
installation of the new value as one foreign call (both sides populated in
a single access invocation) and return the value the slot held before the
new value was installed. -/
theorem get_set_single_call_returns_prior (sizeT : Nat) (slot newv : Bytes)
    (debug : Bool) (hs : slot.length = sizeT) (hn : newv.length = sizeT) :
    getSetRun sizeT debug slot newv = (Outcome.ok slot, newv, 1) ∧
    (getSetArgs sizeT).oldp.isSome = true ∧
    (getSetArgs sizeT).newp.isSome = true := by
  subst hs
  refine ⟨?_, rfl, rfl⟩
  simp [getSetRun, accessRun, getSetArgs, initMem, cvt]

/-- Witness for C2: exchanging `[7]` into a slot holding `[5]` returns
`[5]`, installs `[7]` and makes one foreign call. -/
theorem get_set_single_call_returns_prior_witness :
    getSetRun 1 false [5] [7] = (Outcome.ok [5], [7], 1) :=
  (get_set_single_call_returns_prior 1 [5] [7] false rfl rfl).1

/-- C3: a foreign status is a success exactly when it is 0; every nonzero
status becomes a typed failure preserving exactly that code, and in the
failure case the read and exchange primitives produce no value. -/
theorem cvt_status_zero_iff_success (s : Int) (n : Nat) (debug : Bool)
    (r : ForeignReply) (q : ResolveReply) (hr : r.status = s)
    (hq : q.status = s) :
    (cvt s = Except.ok () ↔ s = 0) ∧
    (s ≠ 0 →
      cvt s = Except.error (IoError.raw s) ∧
      getMibWith n debug r = Outcome.err (IoError.raw s) ∧
      getSetWith n debug r = Outcome.err (IoError.raw s) ∧
      nameToMibWith n debug q = Outcome.err (IoError.raw s) ∧
      ∀ b, getMibWith n debug r ≠ Outcome.ok b) := by
  constructor
  · unfold cvt
    split <;> simp_all
  · intro hs
    simp [cvt, getMibWith, getSetWith, nameToMibWith, hr, hq, hs]

/-- Witness for C3 at status 3: the failure carries exactly code 3. -/
theorem cvt_status_zero_iff_success_witness :
    getMibWith 8 false ⟨3, [], 0⟩ = Outcome.err (IoError.raw 3) :=
  ((cvt_status_zero_iff_success 3 8 false ⟨3, [], 0⟩ ⟨3, [], 0⟩ rfl rfl).2
    (by decide)).2.1

/-- C4: with debug assertions active, a successful foreign resolve whose
reported handle length differs from the expected component count panics
rather than returning a truncated handle, and the typed read and exchange
primitives likewise panic when the foreign-reported value length differs
from `size_of::<T>()` — none of them proceeds to return a value. -/
theorem debug_assert_length_mismatch_fails_loud (n : Nat) (r : ForeignReply)
    (q : ResolveReply) (hr : r.status = 0) (hq : q.status = 0) :
    (¬ n = q.lenOut →
      nameToMibWith n true q = Outcome.assertFail ∧
      ∀ m, nameToMibWith n true q ≠ Outcome.ok m) ∧
    (¬ r.lenOut = n →
      getMibWith n true r = Outcome.assertFail ∧
      getSetWith n true r = Outcome.assertFail ∧
      (∀ b, getMibWith n true r ≠ Outcome.ok b) ∧
      (∀ b, getSetWith n true r ≠ Outcome.ok b)) := by
  constructor
  · intro h
    simp [nameToMibWith, cvt, hq, h]
  · intro h
    simp [getMibWith, getSetWith, cvt, hr, h]

/-- Witness for C4: a resolve reporting 2 components into a 1-component
buffer fails the assertion. -/
theorem debug_assert_length_mismatch_fails_loud_witness :
    nameToMibWith 1 true ⟨0, [7, 8], 2⟩ = Outcome.assertFail :=
  ((debug_assert_length_mismatch_fails_loud 1 ⟨0, [9], 2⟩ ⟨0, [7, 8], 2⟩
    rfl rfl).1 (by decide)).1

/-- C5: the read primitive declares a buffer of exactly `size_of::<T>()`
and populates only the read side (null write buffer, zero write length),
so a read never modifies the slot; the write primitive populates only the
write side (null read buffer and null read length) and returns no value
beyond unit. -/
theorem read_write_sides_disjoint (sizeT : Nat) (u slot v : Bytes)
    (debug : Bool) :
    (getArgs sizeT).newp = none ∧ (getArgs sizeT).newLen = 0 ∧
    (getArgs sizeT).oldLenp = some sizeT ∧
    (getRun sizeT debug u slot).2.1 = slot ∧
    (setArgs sizeT).oldp = none ∧ (setArgs sizeT).oldLenp = none ∧
    (slot.length = sizeT → (setRun sizeT slot v).1 = Outcome.ok ()) := by
  refine ⟨rfl, rfl, rfl, ?_, rfl, rfl, ?_⟩
  · show (accessRun slot (initMem u) (getArgs sizeT)).slot = slot
    unfold accessRun
    split <;> simp [getArgs]
  · intro h
    simp [setRun, accessRun, setArgs, initMem, cvt, h]

/-- Witness for C5: writing `[7]` over a one-byte slot succeeds with unit
while a read of that slot leaves it unchanged. -/
theorem read_write_sides_disjoint_witness :
    (getRun 1 false [] [5]).2.1 = [5] ∧
    (setRun 1 [5] [7]).1 = Outcome.ok () :=
  ⟨(read_write_sides_disjoint 1 [] [5] [7] false).2.2.2.1,
    (read_write_sides_disjoint 1 [] [5] [7] false).2.2.2.2.2.2 rfl⟩

/-- C6: `get_str_mib` reads a pointer-sized value, interprets the pointee
as the null-terminated byte string at that address, returns it exactly
when the bytes are valid text, fails with the `InvalidData` encoding
error when they are not, leaves the allocator state unchanged, and that
encoding error is distinct from every raw-code access error. -/
theorem get_str_encoding_error_distinct (A : AllocModel)
    (valid : Bytes → Bool) (u : Nat) (debug : Bool)
    (hne : A.versionMib ≠ A.epochMib) :
    ((getStrByMib A A.versionMib valid u debug).out =
        Outcome.ok (cstrBytes A A.versionAddr) ↔
      valid (cstrBytes A A.versionAddr) = true) ∧
    (valid (cstrBytes A A.versionAddr) = false →
      (getStrByMib A A.versionMib valid u debug).out =
        Outcome.err IoError.invalidData) ∧
    (getStrByMib A A.versionMib valid u debug).state = A ∧
    (∀ c : Int, IoError.invalidData ≠ IoError.raw c) := by
  rw [getStr_version_by_mib A valid u debug hne]
  rcases h : valid (cstrBytes A A.versionAddr) <;> simp [h]

/-- Witness for C6 at the concrete allocator: under a validator rejecting
everything the result is the distinct encoding error. -/
theorem get_str_encoding_error_distinct_witness :
    (getStrByMib sampleAlloc sampleAlloc.versionMib (fun _ => false) 0
        false).out = Outcome.err IoError.invalidData :=
  (get_str_encoding_error_distinct sampleAlloc (fun _ => false) 0 false
    (by decide)).2.1 rfl

/-- C7: after a successful `set(v)` on a read-write key with no
intervening write, `get()` on the same key returns `Ok(v)` — for
`BackgroundThread` (`bool`, one byte) and for `MaxBackgroundThreads`
(`usize`, eight bytes, values below `2 ^ 64`). -/
theorem readwrite_set_get_roundtrip (slotB slotM u : Bytes) (v : Bool)
    (w : Nat) (debug : Bool) (hb : slotB.length = 1) (hm : slotM.length = 8)
    (hw : w < 2 ^ 64) :
    ((BackgroundThread.setM slotB v).1 = Outcome.ok () ∧
      (BackgroundThread.getM debug u (BackgroundThread.setM slotB v).2.1).1 =
        Outcome.ok v) ∧
    ((MaxBackgroundThreads.setM slotM w).1 = Outcome.ok () ∧
      (MaxBackgroundThreads.getM debug u
          (MaxBackgroundThreads.setM slotM w).2.1).1 = Outcome.ok w) := by
  have hlb : (encodeBool v).length = 1 := by cases v <;> rfl
  have hlm : (encodeU64 w).length = 8 := encodeLE_length 8 w
  have hsetB : BackgroundThread.setM slotB v =
      (Outcome.ok (), encodeBool v, 1) := by
    simp [BackgroundThread.setM, setRun, accessRun, setArgs, initMem, cvt, hb]
  have hsetM : MaxBackgroundThreads.setM slotM w =
      (Outcome.ok (), encodeU64 w, 1) := by
    simp [MaxBackgroundThreads.setM, setRun, accessRun, setArgs, initMem,
      cvt, hm]
  have hgetB : getRun 1 debug u (encodeBool v) =
      (Outcome.ok (encodeBool v), encodeBool v, 1) := by
    simp [getRun, accessRun, getArgs, initMem, cvt, hlb]
  have hgetM : getRun 8 debug u (encodeU64 w) =
      (Outcome.ok (encodeU64 w), encodeU64 w, 1) := by
    simp [getRun, accessRun, getArgs, initMem, cvt, hlm]
  refine ⟨⟨by simp [hsetB], ?_⟩, ⟨by simp [hsetM], ?_⟩⟩
  · rw [hsetB]
    simp [BackgroundThread.getM, hgetB, decodeBool_encodeBool]
  · rw [hsetM]
    simp [MaxBackgroundThreads.getM, hgetM, decodeU64_encodeU64 w hw]

/-- Witness for C7: set `true` then get it back on a one-byte slot, and
set 9 then get 9 back on an eight-byte slot. -/
theorem readwrite_set_get_roundtrip_witness :
    (BackgroundThread.getM false []
        (BackgroundThread.setM [0] true).2.1).1 = Outcome.ok true ∧
    (MaxBackgroundThreads.getM false []
        (MaxBackgroundThreads.setM [0, 0, 0, 0, 0, 0, 0, 0] 9).2.1).1 =
      Outcome.ok 9 :=
  ⟨(readwrite_set_get_roundtrip [0] [0, 0, 0, 0, 0, 0, 0, 0] [] true 9 false
      rfl rfl (by decide)).1.2,
    (readwrite_set_get_roundtrip [0] [0, 0, 0, 0, 0, 0, 0, 0] [] true 9 false
      rfl rfl (by decide)).2.2⟩

/-- C8: an operation exposed both as a direct-path function and as a
handle-based accessor behaves identically given the same allocator state:
once the accessor's constructor succeeds, the direct-path call returns the
same result and leaves the same state as the handle-based call, while
resolving the constant path on every invocation (one resolution per
direct call, none per handle-based call).  Shown for `epoch()` versus
`Epoch::new`/`advance` and `version()` versus `Version::new`/`get`. -/
theorem direct_path_equals_handle_path (A : AllocModel) (debug : Bool)
    (valid : Bytes → Bool) (u : Nat)
    (hreg : A.registry epochPath = some A.epochMib)
    (hregv : A.registry versionPath = some A.versionMib)
    (hne : A.versionMib ≠ A.epochMib) :
    (∀ m, Epoch.newM A debug = Outcome.ok m →
        (epochDirect A debug).out = (Epoch.advanceM A m debug).out ∧
        (epochDirect A debug).state = (Epoch.advanceM A m debug).state ∧
        (epochDirect A debug).resolveCalls = 1 ∧
        (Epoch.advanceM A m debug).resolveCalls = 0) ∧
    (∀ m, Version.newM A debug = Outcome.ok m →
        (versionDirect A valid u debug).out =
          (Version.getM A m valid u debug).out ∧
        (versionDirect A valid u debug).state =
          (Version.getM A m valid u debug).state ∧
        (versionDirect A valid u debug).resolveCalls = 1 ∧
        (Version.getM A m valid u debug).resolveCalls = 0) := by
  constructor
  · intro m hm
    have hmeq : m = A.epochMib := by
      simp only [Epoch.newM, hreg] at hm
      by_cases hc : debug = true ∧ ¬ A.epochMib.length = 1
      · rw [if_pos hc] at hm
        simp at hm
      · rw [if_neg hc] at hm
        simp at hm
        exact hm.symm
    subst hmeq
    rw [advanceM_run, epochDirect_run A debug hreg]
    exact ⟨rfl, rfl, rfl, rfl⟩
  · intro m hm
    have hmeq : m = A.versionMib := by
      simp only [Version.newM, hregv] at hm
      by_cases hc : debug = true ∧ ¬ A.versionMib.length = 1
      · rw [if_pos hc] at hm
        simp at hm
      · rw [if_neg hc] at hm
        simp at hm
        exact hm.symm
    subst hmeq
    rw [Version.getM, getStr_version_by_mib A valid u debug hne,
      versionDirect, getStr_version_by_name A valid u debug hregv hne]
    exact ⟨rfl, rfl, rfl, rfl⟩

/-- Witness for C8 at the concrete allocator: the direct epoch call and
the handle-based advance agree on result and state. -/
theorem direct_path_equals_handle_path_witness :
    (epochDirect sampleAlloc false).out =
      (Epoch.advanceM sampleAlloc [1] false).out ∧
    (epochDirect sampleAlloc false).resolveCalls = 1 :=
  ⟨((direct_path_equals_handle_path sampleAlloc false (fun _ => true) 0
      (by decide) (by decide) (by decide)).1 [1] (by decide)).1,
    ((direct_path_equals_handle_path sampleAlloc false (fun _ => true) 0
      (by decide) (by decide) (by decide)).1 [1] (by decide)).2.2.1⟩

/-- C9: the exchange primitives pass the address of the one local variable
as both the read destination and the write source, with the single length
`size_of::<T>()` serving both directions, and the value they return is
exactly what the foreign call leaves in that shared buffer. -/
theorem get_set_shared_buffer (sizeT : Nat) (slot newv : Bytes)
    (debug : Bool) :
    (getSetArgs sizeT).oldp = (getSetArgs sizeT).newp ∧
    (getSetArgs sizeT).oldp = some 0 ∧
    (getSetArgs sizeT).oldLenp = some sizeT ∧
    (getSetArgs sizeT).newLen = sizeT ∧
    (∀ b, (getSetRun sizeT debug slot newv).1 = Outcome.ok b →
      b = (accessRun slot (initMem newv) (getSetArgs sizeT)).mem 0) := by
  refine ⟨rfl, rfl, rfl, rfl, ?_⟩
  intro b h
  simp only [getSetRun] at h
  split at h
  · cases h
  · split at h
    · cases h
    · cases h
      rfl

/-- Witness for C9: the returned previous value `[5]` is the final
contents of the shared buffer. -/
theorem get_set_shared_buffer_witness :
    [5] = (accessRun [5] (initMem [7]) (getSetArgs 1)).mem 0 :=
  (get_set_shared_buffer 1 [5] [7] false).2.2.2.2 [5] (by decide)

end JemallocCtl
